import Mathlib

/-
Verification of the mini-python interpreter (lexer, runtime object model and
evaluator) against its natural-language specification.

The Lean definitions below are a shallow embedding of the C++ sources:
  runtime.h / runtime.cpp  (ObjectHolder, IsTrue, Class, ClassInstance,
                            Equal, Less, NotEqual, Greater, LessOrEqual,
                            GreaterOrEqual)
  statement.h / statement.cpp (the AST node Execute methods)
  lexer.h / lexer.cpp      (Lexer::NextToken and its helpers)

Modelling conventions:
  - ObjectHolder is `Option Value`; `none` is the empty holder (None).
  - Class instances are mutable and shared, so they live in an explicit heap
    (`State`); a `Value.inst a` is a reference to heap slot `a`.  Pointer
    identity of instances is address equality in the heap.
  - `Closure` (std::unordered_map<std::string, ObjectHolder>) is an
    association list; `Closure.setKey` is `operator[]` followed by
    assignment, `Closure.atKey` is `at`/`count`, `Closure.indexKey` is a
    read through `operator[]` (which default-inserts an empty holder).
  - C++ exceptions are `Except`.  `RErr.runtimeError` is a thrown
    std::runtime_error.  `RErr.nullDeref` marks the places where the C++
    code dereferences a null pointer (undefined behaviour, not a thrown
    error).  `RErr.invalidAddr` and `RErr.mapAtMissing` are model artifacts
    for situations the C++ runtime makes impossible (a dangling heap
    address, `at` on a missing key).
  - The runtime Number is ValueObject<int>: a 32-bit signed int.  The
    model carries its mathematical value as an `Int`; every Number the
    program constructs stays in the int range (stoi bounds the literals,
    and the arithmetic cases below check representability), and an
    arithmetic result outside the range is the signed-integer-overflow
    undefined behaviour of C++, marked `RErr.signedOverflow`.  Division is
    `Int.tdiv`, which truncates toward zero exactly like C++ `/`.
  - Sub/Mult/Div::Execute capture `TryAs<Number>()` raw pointers out of
    the temporary ObjectHolders their operand Execute calls return; each
    temporary is destroyed at the end of its own init-declarator, so when
    an operand holder was the unique owner of its Number - the operand
    expression is itself an arithmetic node, whose result is created with
    ObjectHolder::Own - the later GetValue() reads freed memory.  This
    unconditional use-after-free is marked `RErr.useAfterFree` (a holder
    returned by a method call can also end up uniquely owning a Number
    computed inside the callee; whether it does depends on the callee's
    body and is an ownership property outside this value model).
  - Recursive evaluation is fuel-indexed (`RErr.fuelExhausted` when fuel
    runs out); every theorem quantifies over the fuel.
-/

namespace MiniPy

abbrev Addr := Nat
abbrev ClassId := Nat

/-- Runtime values: Number, Bool, String, Class and ClassInstance.
An instance value is a shared reference into the heap.  `num` carries the
mathematical value of the 32-bit `int` inside ValueObject<int>: every
Number a program run constructs lies in the int range (literals are
stoi-bounded, and the arithmetic below marks out-of-range results as the
undefined behaviour they are). -/
inductive Value where
  | num  : Int → Value
  | bool : Bool → Value
  | str  : String → Value
  | cls  : ClassId → Value
  | inst : Addr → Value
deriving DecidableEq

/-- ObjectHolder: a possibly-empty shared handle; `none` denotes None. -/
abbrev ObjectHolder := Option Value

/-- Symbol table (std::unordered_map<std::string, ObjectHolder>). -/
abbrev Closure := List (String × ObjectHolder)

/-- Map lookup: `count` / `at` on the closure. -/
def Closure.atKey : Closure → String → Option ObjectHolder
  | [], _ => none
  | (k, v) :: rest, key => if k = key then some v else Closure.atKey rest key

/-- closure.count(key) as a Bool. -/
def Closure.countKey (cl : Closure) (key : String) : Bool :=
  (Closure.atKey cl key).isSome

/-- closure[key] = v : insert or overwrite. -/
def Closure.setKey : Closure → String → ObjectHolder → Closure
  | [], key, v => [(key, v)]
  | (k, w) :: rest, key, v =>
    if k = key then (k, v) :: rest else (k, w) :: Closure.setKey rest key v

/-- A read through `operator[]`: returns the stored holder, default-inserting
an empty holder when the key is missing (this is what
`ptr->Fields()[ids_[i]]` does in VariableValue::Execute). -/
def Closure.indexKey (cl : Closure) (key : String) : ObjectHolder × Closure :=
  match Closure.atKey cl key with
  | some v => (v, cl)
  | none => (none, cl ++ [(key, none)])

/-- IsTrue from runtime.cpp: non-zero numbers, true bools and non-empty
strings are truthy; the empty holder and every other object is falsy. -/
def IsTrue : ObjectHolder → Bool
  | none => false
  | some (.num n) => n != 0
  | some (.bool b) => b
  | some (.str s) => s != ""
  | some _ => false

/-- Statement / expression AST nodes from statement.h, restricted to the
node shapes the verified claims are about.  `varValue` carries the dotted
identifier chain, `fieldAssign` carries the object chain and field name,
`newInstance` refers to a class by table index. -/
inductive Stmt where
  | numConst : Int → Stmt
  | strConst : String → Stmt
  | boolConst : Bool → Stmt
  | noneLit : Stmt
  | varValue : List String → Stmt
  | assign : String → Stmt → Stmt
  | fieldAssign : List String → String → Stmt → Stmt
  | methodCall : Stmt → String → List Stmt → Stmt
  | newInstance : ClassId → List Stmt → Stmt
  | sub : Stmt → Stmt → Stmt
  | mult : Stmt → Stmt → Stmt
  | div : Stmt → Stmt → Stmt
  | compound : List Stmt → Stmt
  | ret : Stmt → Stmt
  | methodBody : Stmt → Stmt

/-- Method record: name, formal parameter names and body. -/
structure Method where
  name : String
  formal_params : List String
  body : Stmt

/-- Class: name, own methods and an optional parent class (single
inheritance).  Classes are stored in a table and referenced by index. -/
structure Class where
  name : String
  methods : List Method
  parent : Option ClassId

abbrev ClassTable := List Class

/-- Lookup in the own-method index (name_to_method_): the constructor fills
the map in order, so for duplicate names the later method wins. -/
def findOwnMethod (ms : List Method) (mname : String) : Option Method :=
  ms.foldl (fun acc m => if m.name = mname then some m else acc) none

/-- Class::GetMethod: search own methods, then recurse into the parent.
The parent chain is cut off by fuel; any chain in a table produced by the
parser is shorter than the table, so `Class.GetMethod` below gives it
enough fuel to be exact. -/
def getMethodAux : Nat → ClassTable → ClassId → String → Option Method
  | 0, _, _, _ => none
  | fuel+1, ct, cid, mname =>
    match ct.get? cid with
    | none => none
    | some c =>
      match findOwnMethod c.methods mname with
      | some m => some m
      | none =>
        match c.parent with
        | some p => getMethodAux fuel ct p mname
        | none => none

/-- Class::GetMethod with the fuel instantiated. -/
def Class.GetMethod (ct : ClassTable) (cid : ClassId) (mname : String) : Option Method :=
  getMethodAux (ct.length + 1) ct cid mname

/-- ClassInstance::HasMethod: the method exists (possibly inherited) and its
formal parameter count equals argc. -/
def hasMethod (ct : ClassTable) (cid : ClassId) (mname : String) (argc : Nat) : Bool :=
  match Class.GetMethod ct cid mname with
  | some m => m.formal_params.length == argc
  | none => false

/-- A heap cell: the instance's class and its field map. -/
structure InstanceData where
  cls : ClassId
  fields : Closure
deriving DecidableEq

/-- The heap of class instances; `Value.inst a` points at slot `a`. -/
structure State where
  heap : List InstanceData
deriving DecidableEq

def State.getInst (st : State) (a : Addr) : Option InstanceData :=
  st.heap.get? a

def State.setInst (st : State) (a : Addr) (d : InstanceData) : State :=
  ⟨st.heap.set a d⟩

/-- Own a fresh ClassInstance with an empty field map; its address is the
old heap length. -/
def State.alloc (st : State) (cid : ClassId) : State :=
  ⟨st.heap ++ [⟨cid, []⟩]⟩

/-- Runtime-error outcomes; see the modelling conventions above.
`runtimeError` is a thrown std::runtime_error; `nullDeref`, `useAfterFree`
and `signedOverflow` mark the three undefined-behaviour sites of the
evaluator (member call through a null pointer, read of a Number freed with
its uniquely owning temporary holder, and int arithmetic whose exact
result does not fit in 32 bits); the rest are model artifacts. -/
inductive RErr where
  | runtimeError : String → RErr
  | nullDeref : RErr
  | useAfterFree : RErr
  | signedOverflow : RErr
  | invalidAddr : RErr
  | mapAtMissing : RErr
  | fuelExhausted : RErr
deriving DecidableEq

/-- Whether a mathematical integer is representable in the host 32-bit
signed `int` that ValueObject<int> stores. -/
def fitsInt (n : Int) : Bool := -2147483648 ≤ n && n ≤ 2147483647

/-- The modelled statements whose Execute always returns a holder created
with ObjectHolder::Own - the unique owner of a freshly allocated Number:
the arithmetic nodes.  When such a node is an operand of Sub, Mult or Div,
the raw Number pointer TryAs extracted from its result holder dangles as
soon as that temporary holder is destroyed (at the end of its own
init-declarator), before GetValue reads it. -/
def ownsFreshResult : Stmt → Bool
  | .sub _ _ => true
  | .mult _ _ => true
  | .div _ _ => true
  | _ => false

/-- The field-walking loop of VariableValue::Execute: step through the
dotted chain, reading each component out of the current instance's field
map (default-inserting an empty holder for a missing field), and raise
"Unknown variable" when a non-instance is dereferenced. -/
def walkFields : List String → ObjectHolder → State → Except RErr (ObjectHolder × State)
  | [], obj, st => .ok (obj, st)
  | fid :: rest, obj, st =>
    match obj with
    | some (.inst a) =>
      match State.getInst st a with
      | some d =>
        let p := Closure.indexKey d.fields fid
        walkFields rest p.1 (State.setInst st a ⟨d.cls, p.2⟩)
      | none => .error .invalidAddr
    | _ => .error (.runtimeError ("Unknown variable - " ++ fid))

/-- VariableValue::Execute: resolve the head of the chain in the closure
(missing head is "Unknown variable"), then walk the fields. -/
def VariableValue.ExecuteCore (ids : List String) (cl : Closure) (st : State) :
    Except RErr (ObjectHolder × State) :=
  match ids with
  | [] => .error .nullDeref
  | x :: rest =>
    match Closure.atKey cl x with
    | none => .error (.runtimeError ("Unknown variable - " ++ x))
    | some obj => walkFields rest obj st

/-- Evaluator for statement argument lists (the arg loops in
MethodCall::Execute and NewInstance::Execute), parameterized by the
single-statement evaluator.  Arguments are evaluated left to right, each one
seeing the closure and heap updates of the previous. -/
def runArgs (ev : Stmt → Closure → State → Except RErr (ObjectHolder × Closure × State)) :
    List Stmt → Closure → State → Except RErr (List ObjectHolder × Closure × State)
  | [], cl, st => .ok ([], cl, st)
  | s :: rest, cl, st =>
    match ev s cl st with
    | .ok (v, cl1, st1) =>
      match runArgs ev rest cl1 st1 with
      | .ok (vs, cl2, st2) => .ok (v :: vs, cl2, st2)
      | .error e => .error e
    | .error e => .error e

/-- Compound::Execute loop: run each statement in order and stop (returning
nothing) as soon as the closure contains the reserved key returned_value. -/
def runCompound (ev : Stmt → Closure → State → Except RErr (ObjectHolder × Closure × State)) :
    List Stmt → Closure → State → Except RErr (Closure × State)
  | [], cl, st => .ok (cl, st)
  | s :: rest, cl, st =>
    match ev s cl st with
    | .ok (_, cl1, st1) =>
      if Closure.countKey cl1 "returned_value" then .ok (cl1, st1)
      else runCompound ev rest cl1 st1
    | .error e => .error e

/-- The parameter-binding loop of ClassInstance::Call: self first, then each
formal parameter bound to the corresponding actual argument. -/
def bindParams : List String → List ObjectHolder → Closure → Closure
  | p :: ps, v :: vs, cl => bindParams ps vs (Closure.setKey cl p v)
  | _, _, cl => cl

/-- ClassInstance::Call, parameterized by the body evaluator: check
HasMethod (arity included; a mismatch throws "Method does not exist"),
build the fresh call scope with self and the bound parameters, run the
body, and return the body's value - unless the binding of self in the call
scope no longer is the receiver, in which case the current self binding is
returned instead. -/
def runCall (ev : Stmt → Closure → State → Except RErr (ObjectHolder × Closure × State))
    (ct : ClassTable) (a : Addr) (mname : String) (args : List ObjectHolder) (st : State) :
    Except RErr (ObjectHolder × State) :=
  match State.getInst st a with
  | none => .error .invalidAddr
  | some d =>
    if hasMethod ct d.cls mname args.length then
      match Class.GetMethod ct d.cls mname with
      | some mp =>
        match ev mp.body (bindParams mp.formal_params args [("self", some (.inst a))]) st with
        | .ok (res, cl1, st1) =>
          match Closure.atKey cl1 "self" with
          | some h => .ok ((if h = some (.inst a) then res else h), st1)
          | none => .error .mapAtMissing
        | .error e => .error e
      | none => .error .invalidAddr
    else .error (.runtimeError "Method does not exist")

/-- The Execute methods of the modelled AST nodes (statement.cpp), as one
fuel-indexed evaluator.  Each case mirrors the corresponding C++ Execute
body; sub-evaluations run at one fuel less. -/
def exec : Nat → ClassTable → Stmt → Closure → State → Except RErr (ObjectHolder × Closure × State)
  | 0, _, _, _, _ => .error .fuelExhausted
  | fuel+1, ct, stmt, cl, st =>
    match stmt with
    | .numConst n => .ok (some (.num n), cl, st)
    | .strConst s => .ok (some (.str s), cl, st)
    | .boolConst b => .ok (some (.bool b), cl, st)
    | .noneLit => .ok (none, cl, st)
    | .varValue ids =>
      match VariableValue.ExecuteCore ids cl st with
      | .ok (v, st1) => .ok (v, cl, st1)
      | .error e => .error e
    | .assign x rv =>
      match exec fuel ct rv cl st with
      | .ok (v, cl1, st1) =>
        let cl2 := Closure.setKey cl1 x v
        match Closure.atKey cl2 x with
        | some h => .ok (h, cl2, st1)
        | none => .error .mapAtMissing
      | .error e => .error e
    | .fieldAssign ids fname rv =>
      match VariableValue.ExecuteCore ids cl st with
      | .ok (ov, st1) =>
        match ov with
        | some (.inst a) =>
          match exec fuel ct rv cl st1 with
          | .ok (v, cl1, st2) =>
            match State.getInst st2 a with
            | some d =>
              let f2 := Closure.setKey d.fields fname v
              match Closure.atKey f2 fname with
              | some h => .ok (h, cl1, State.setInst st2 a ⟨d.cls, f2⟩)
              | none => .error .mapAtMissing
            | none => .error .invalidAddr
          | .error e => .error e
        | _ => .error .nullDeref
      | .error e => .error e
    | .methodCall obj mname args =>
      match runArgs (fun s c t => exec fuel ct s c t) args cl st with
      | .ok (vals, cl1, st1) =>
        match exec fuel ct obj cl1 st1 with
        | .ok (ov, cl2, st2) =>
          match ov with
          | some (.inst a) =>
            match runCall (fun s c t => exec fuel ct s c t) ct a mname vals st2 with
            | .ok (r, st3) => .ok (r, cl2, st3)
            | .error e => .error e
          | _ => .error .nullDeref
        | .error e => .error e
      | .error e => .error e
    | .newInstance cid args =>
      let a := st.heap.length
      let st1 := State.alloc st cid
      match Class.GetMethod ct cid "__init__" with
      | none => .ok (some (.inst a), cl, st1)
      | some mp =>
        if mp.formal_params.length = args.length then
          match runArgs (fun s c t => exec fuel ct s c t) args cl st1 with
          | .ok (vals, cl1, st2) =>
            match runCall (fun s c t => exec fuel ct s c t) ct a "__init__" vals st2 with
            | .ok (r, st3) =>
              match r with
              | some v => .ok (some v, cl1, st3)
              | none => .ok (some (.inst a), cl1, st3)
            | .error e => .error e
          | .error e => .error e
        else .ok (some (.inst a), cl, st1)
    | .sub l r =>
      match exec fuel ct l cl st with
      | .ok (lv, cl1, st1) =>
        match exec fuel ct r cl1 st1 with
        | .ok (rv, cl2, st2) =>
          match lv, rv with
          | some (.num a), some (.num b) =>
            if ownsFreshResult l || ownsFreshResult r then .error .useAfterFree
            else if fitsInt (a - b) then .ok (some (.num (a - b)), cl2, st2)
            else .error .signedOverflow
          | _, _ => .error (.runtimeError "Incorrect subtraction")
        | .error e => .error e
      | .error e => .error e
    | .mult l r =>
      match exec fuel ct l cl st with
      | .ok (lv, cl1, st1) =>
        match exec fuel ct r cl1 st1 with
        | .ok (rv, cl2, st2) =>
          match lv, rv with
          | some (.num a), some (.num b) =>
            if ownsFreshResult l || ownsFreshResult r then .error .useAfterFree
            else if fitsInt (a * b) then .ok (some (.num (a * b)), cl2, st2)
            else .error .signedOverflow
          | _, _ => .error (.runtimeError "Incorrect multiplication")
        | .error e => .error e
      | .error e => .error e
    | .div l r =>
      match exec fuel ct l cl st with
      | .ok (lv, cl1, st1) =>
        match exec fuel ct r cl1 st1 with
        | .ok (rv, cl2, st2) =>
          match lv, rv with
          | some (.num a), some (.num b) =>
            -- the zero test reads the right Number before anything reads
            -- the left one, so a zero divisor throws before a dangling
            -- left pointer could be dereferenced
            if ownsFreshResult r then .error .useAfterFree
            else if b = 0 then .error (.runtimeError "Incorrect division")
            else if ownsFreshResult l then .error .useAfterFree
            else if fitsInt (Int.tdiv a b) then .ok (some (.num (Int.tdiv a b)), cl2, st2)
            else .error .signedOverflow
          | _, _ => .error (.runtimeError "Incorrect division")
        | .error e => .error e
      | .error e => .error e
    | .compound stmts =>
      match runCompound (fun s c t => exec fuel ct s c t) stmts cl st with
      | .ok (cl1, st1) => .ok (none, cl1, st1)
      | .error e => .error e
    | .ret s =>
      match exec fuel ct s cl st with
      | .ok (v, cl1, st1) => .ok (none, Closure.setKey cl1 "returned_value" v, st1)
      | .error e => .error e
    | .methodBody b =>
      match exec fuel ct b cl st with
      | .ok (_, cl1, st1) =>
        match Closure.atKey cl1 "returned_value" with
        | some v => .ok (v, cl1, st1)
        | none => .ok (none, cl1, st1)
      | .error e => .error e

/-- The argument-evaluation loop at a given fuel (definitionally what the
exec cases above use). -/
def execArgs (fuel : Nat) (ct : ClassTable) :
    List Stmt → Closure → State → Except RErr (List ObjectHolder × Closure × State) :=
  runArgs (fun s c t => exec fuel ct s c t)

/-- ClassInstance::Call with the body run by exec at the given fuel. -/
def callMethod (fuel : Nat) (ct : ClassTable) (a : Addr) (mname : String)
    (args : List ObjectHolder) (st : State) : Except RErr (ObjectHolder × State) :=
  runCall (fun s c t => exec fuel ct s c t) ct a mname args st

/-- Lexicographic byte-wise comparison of strings (std::string operator<). -/
def chLt : List Char → List Char → Bool
  | [], [] => false
  | [], _ :: _ => true
  | _ :: _, [] => false
  | c :: cs, d :: ds => if c < d then true else if d < c then false else chLt cs ds

def strLt (a b : String) : Bool := chLt a.data b.data

/-- Equal from runtime.cpp: None equals None; matching primitive kinds
compare by value; a ClassInstance on the left with a unary dunder eq
dispatches to it and coerces the result with IsTrue; everything else throws
"Equality operator is not applicable". -/
def Equal (fuel : Nat) (ct : ClassTable) (lhs rhs : ObjectHolder) (st : State) :
    Except RErr (Bool × State) :=
  match lhs with
  | none =>
    match rhs with
    | none => .ok (true, st)
    | some _ => .error (.runtimeError "Equality operator is not applicable")
  | some (.bool a) =>
    match rhs with
    | some (.bool b) => .ok (a == b, st)
    | _ => .error (.runtimeError "Equality operator is not applicable")
  | some (.num a) =>
    match rhs with
    | some (.num b) => .ok (a == b, st)
    | _ => .error (.runtimeError "Equality operator is not applicable")
  | some (.str a) =>
    match rhs with
    | some (.str b) => .ok (a == b, st)
    | _ => .error (.runtimeError "Equality operator is not applicable")
  | some (.inst a) =>
    match State.getInst st a with
    | none => .error .invalidAddr
    | some d =>
      if hasMethod ct d.cls "__eq__" 1 then
        match callMethod fuel ct a "__eq__" [rhs] st with
        | .ok (r, st1) => .ok (IsTrue r, st1)
        | .error e => .error e
      else .error (.runtimeError "Equality operator is not applicable")
  | some (.cls _) => .error (.runtimeError "Equality operator is not applicable")

/-- Less from runtime.cpp: same structure as Equal, with value order for
the primitive kinds, a unary dunder lt for instances, and the message
"Less operator is not applicable".  Note that two None operands throw. -/
def Less (fuel : Nat) (ct : ClassTable) (lhs rhs : ObjectHolder) (st : State) :
    Except RErr (Bool × State) :=
  match lhs with
  | some (.bool a) =>
    match rhs with
    | some (.bool b) => .ok (!a && b, st)
    | _ => .error (.runtimeError "Less operator is not applicable")
  | some (.num a) =>
    match rhs with
    | some (.num b) => .ok (decide (a < b), st)
    | _ => .error (.runtimeError "Less operator is not applicable")
  | some (.str a) =>
    match rhs with
    | some (.str b) => .ok (strLt a b, st)
    | _ => .error (.runtimeError "Less operator is not applicable")
  | some (.inst a) =>
    match State.getInst st a with
    | none => .error .invalidAddr
    | some d =>
      if hasMethod ct d.cls "__lt__" 1 then
        match callMethod fuel ct a "__lt__" [rhs] st with
        | .ok (r, st1) => .ok (IsTrue r, st1)
        | .error e => .error e
      else .error (.runtimeError "Less operator is not applicable")
  | _ => .error (.runtimeError "Less operator is not applicable")

/-- NotEqual is the negation of Equal. -/
def NotEqual (fuel : Nat) (ct : ClassTable) (lhs rhs : ObjectHolder) (st : State) :
    Except RErr (Bool × State) :=
  match Equal fuel ct lhs rhs st with
  | .ok (b, st1) => .ok (!b, st1)
  | .error e => .error e

/-- Greater computes both primitives explicitly (Equal first, then Less on
the state Equal produced) and conjoins their negations; either primitive
throwing makes Greater throw. -/
def Greater (fuel : Nat) (ct : ClassTable) (lhs rhs : ObjectHolder) (st : State) :
    Except RErr (Bool × State) :=
  match Equal fuel ct lhs rhs st with
  | .ok (e, st1) =>
    match Less fuel ct lhs rhs st1 with
    | .ok (l, st2) => .ok (!e && !l, st2)
    | .error err => .error err
  | .error err => .error err

/-- LessOrEqual is the negation of Greater. -/
def LessOrEqual (fuel : Nat) (ct : ClassTable) (lhs rhs : ObjectHolder) (st : State) :
    Except RErr (Bool × State) :=
  match Greater fuel ct lhs rhs st with
  | .ok (b, st1) => .ok (!b, st1)
  | .error e => .error e

/-- GreaterOrEqual is the negation of Less. -/
def GreaterOrEqual (fuel : Nat) (ct : ClassTable) (lhs rhs : ObjectHolder) (st : State) :
    Except RErr (Bool × State) :=
  match Less fuel ct lhs rhs st with
  | .ok (b, st1) => .ok (!b, st1)
  | .error e => .error e

/-
Lexer model (lexer.h / lexer.cpp).  The input stream is the list of
remaining characters; the lexer state carries the two indentation counters
and the current token, exactly as the Lexer class does.
-/

/-- Token kinds from lexer.h.  Number carries the `int` payload that
`stoi` produces. -/
inductive Tok where
  | number : Int → Tok
  | id : String → Tok
  | char : Char → Tok
  | strLit : String → Tok
  | kwClass : Tok
  | kwReturn : Tok
  | kwIf : Tok
  | kwElse : Tok
  | kwDef : Tok
  | newline : Tok
  | kwPrint : Tok
  | indent : Tok
  | dedent : Tok
  | kwAnd : Tok
  | kwOr : Tok
  | kwNot : Tok
  | eq : Tok
  | notEq : Tok
  | lessOrEq : Tok
  | greaterOrEq : Tok
  | kwNone : Tok
  | kwTrue : Tok
  | kwFalse : Tok
  | eof : Tok
deriving DecidableEq

/-- Lexer failures: LexerError with its message, the std::out_of_range that
stoi raises for digit runs above INT_MAX, the endless loop GetStrLiteral
enters on an unterminated string at end of input (modelled as an error),
and the fuel artifact of the model. -/
inductive LexErr where
  | lexerError : String → LexErr
  | stoiOutOfRange : LexErr
  | eofInString : LexErr
  | fuelOut : LexErr
deriving DecidableEq

/-- The Lexer state: indent_, indent_diff_, token_ and the rest of the
input stream.  The counters are C++ ints, so they are modelled as Int. -/
structure LexState where
  indent : Int
  indentDiff : Int
  token : Tok
  input : List Char
deriving DecidableEq

def comparisonSymbols : List Char := ['=', '!', '<', '>']

def specialSymbols : List Char := ['.', ',', ':', '+', '-', '*', '/', '(', ')', '=', '<', '>']

/-- istream::ignore(max, newline): drop everything up to and including the
next newline (or the whole rest of the input). -/
def ignoreThroughNewline : List Char → List Char
  | [] => []
  | c :: rest => if c = '\n' then rest else ignoreThroughNewline rest

/-- The loop of Lexer::SkipUselessSymbols: count leading spaces, restart
the count after a comment line or a newline, and stop at the first other
character (or end of input), returning the final space count and the rest
of the input.  Fuel-indexed; every step consumes at least one character, so
the wrapper below gives it enough fuel to be exact. -/
def skipUselessF : Nat → Nat → List Char → Nat × List Char
  | 0, spaces, input => (spaces, input)
  | _+1, spaces, [] => (spaces, [])
  | fuel+1, spaces, c :: rest =>
    if c = ' ' then skipUselessF fuel (spaces + 1) rest
    else if c = '#' then skipUselessF fuel 0 (ignoreThroughNewline rest)
    else if c = '\n' then skipUselessF fuel 0 rest
    else (spaces, c :: rest)

/-- Lexer::SkipUselessSymbols: returns the new indent_diff_, the new
indent_ and the remaining input (indent_diff_ = spaces / 2 - indent_;
indent_ = spaces / 2). -/
def skipUselessSymbols (ind : Int) (input : List Char) : Int × Int × List Char :=
  let p := skipUselessF (input.length + 1) 0 input
  (((p.1 / 2 : Nat) : Int) - ind, ((p.1 / 2 : Nat) : Int), p.2)

/-- Apply SkipUselessSymbols to a lexer state. -/
def applySkip (st : LexState) : LexState :=
  let r := skipUselessSymbols st.indent st.input
  { indent := r.2.1, indentDiff := r.1, token := st.token, input := r.2.2 }

/-- The numeric value of a digit run, as stoi computes it. -/
def digitsToNat (ds : List Char) : Nat :=
  ds.foldl (fun acc c => 10 * acc + (c.toNat - 48)) 0

/-- Lexer::GetNumber: take the maximal run of digits and parse it with
stoi, whose result is a C++ int; values above INT_MAX raise
std::out_of_range. -/
def getNumber (input : List Char) : Except LexErr (Tok × List Char) :=
  let ds := input.takeWhile Char.isDigit
  let rest := input.dropWhile Char.isDigit
  if digitsToNat ds ≤ 2147483647 then .ok (.number (Int.ofNat (digitsToNat ds)), rest)
  else .error .stoiOutOfRange

/-- Escape handling in GetStrLiteral: backslash n and backslash t map to
newline and tab, any other escaped character stands for itself. -/
def escChar (c : Char) : Char :=
  if c = 'n' then '\n' else if c = 't' then '\t' else c

/-- The loop of Lexer::GetStrLiteral after the opening quote was read. -/
def getStrLiteralAux (openCh : Char) (acc : String) : List Char → Except LexErr (Tok × List Char)
  | [] => .error .eofInString
  | c :: rest =>
    if c = '\\' then
      match rest with
      | [] => .error .eofInString
      | e :: rest2 => getStrLiteralAux openCh (acc.push (escChar e)) rest2
    else if c = openCh then .ok (.strLit acc, rest)
    else getStrLiteralAux openCh (acc.push c) rest

/-- Keyword recognition of Lexer::GetName. -/
def keywordOrId (w : String) : Tok :=
  if w = "class" then .kwClass
  else if w = "return" then .kwReturn
  else if w = "if" then .kwIf
  else if w = "else" then .kwElse
  else if w = "def" then .kwDef
  else if w = "print" then .kwPrint
  else if w = "and" then .kwAnd
  else if w = "or" then .kwOr
  else if w = "not" then .kwNot
  else if w = "None" then .kwNone
  else if w = "True" then .kwTrue
  else if w = "False" then .kwFalse
  else .id w

def isNameChar (c : Char) : Bool := c = '_' || c.isDigit || c.isAlpha

/-- Lexer::GetName: the maximal run of name characters, mapped through the
keyword table. -/
def getName (input : List Char) : Tok × List Char :=
  (keywordOrId (String.mk (input.takeWhile isNameChar)), input.dropWhile isNameChar)

/-- Lexer::GetCompOperator: read two characters and map them to the
two-character comparison tokens. -/
def getCompOperator (input : List Char) : Except LexErr (Tok × List Char) :=
  match input with
  | c1 :: c2 :: rest =>
    if c1 = '<' ∧ c2 = '=' then .ok (.lessOrEq, rest)
    else if c1 = '>' ∧ c2 = '=' then .ok (.greaterOrEq, rest)
    else if c1 = '=' ∧ c2 = '=' then .ok (.eq, rest)
    else if c1 = '!' ∧ c2 = '=' then .ok (.notEq, rest)
    else .error (.lexerError "Expected two chars long comparison operator")
  | _ => .error (.lexerError "Expected two chars long comparison operator")

/-- The part of Lexer::NextToken that runs after the Eof early-return and
the newline-triggered SkipUselessSymbols: drain pending indentation
emissions, skip spaces, and lex one token.  `self` is the self-call the C++
code makes when a comment line is followed by another comment.  Every
branch stores the produced token back into the state, mirroring
`token_ = ...`. -/
def nextTokenBody (self : LexState → Except LexErr (Tok × LexState)) (st : LexState) :
    Except LexErr (Tok × LexState) :=
  if st.indentDiff ≠ 0 then
    if st.indentDiff > 0 then
      .ok (.indent, { st with indentDiff := st.indentDiff - 1, token := .indent })
    else
      .ok (.dedent, { st with indentDiff := st.indentDiff + 1, token := .dedent })
  else
    match st.input.dropWhile (fun c => c = ' ') with
    | [] =>
      let t := if st.token = .indent ∨ st.token = .dedent ∨ st.token = .newline
               then Tok.eof else Tok.newline
      .ok (t, { st with input := [], token := t })
    | c :: rest =>
      if c = '\n' then .ok (.newline, { st with input := rest, token := .newline })
      else if c.isDigit then
        match getNumber (c :: rest) with
        | .ok (t, r) => .ok (t, { st with input := r, token := t })
        | .error e => .error e
      else if c = '\'' ∨ c = '\"' then
        match getStrLiteralAux c "" rest with
        | .ok (t, r) => .ok (t, { st with input := r, token := t })
        | .error e => .error e
      else if c = '#' then
        let st2 := applySkip { st with input := ignoreThroughNewline rest }
        match st2.input with
        | [] => .ok (.eof, { st2 with token := .eof })
        | c2 :: _ =>
          if c2 = '#' then self st2
          else .ok (.newline, { st2 with token := .newline })
      else if c = '=' ∧ rest.head? ≠ some '=' then
        .ok (.char '=', { st with input := rest, token := .char '=' })
      else if comparisonSymbols.contains c ∧ rest.head? = some '=' then
        match getCompOperator (c :: rest) with
        | .ok (t, r) => .ok (t, { st with input := r, token := t })
        | .error e => .error e
      else if c.isAlpha ∨ c = '_' then
        let p := getName (c :: rest)
        .ok (p.1, { st with input := p.2, token := p.1 })
      else if specialSymbols.contains c then
        .ok (.char c, { st with input := rest, token := .char c })
      else .error (.lexerError "Error occurred in token generation process")

/-- Lexer::NextToken, fuel-indexed (the self-call always consumes input, so
the wrapper below gives it enough fuel to be exact): Eof is returned
immediately with the state untouched; after a Newline the skip runs first;
then the body above lexes. -/
def nextTokenF : Nat → LexState → Except LexErr (Tok × LexState)
  | 0, _ => .error .fuelOut
  | fuel+1, st0 =>
    if st0.token = .eof then .ok (.eof, st0)
    else nextTokenBody (fun s => nextTokenF fuel s)
           (if st0.token = .newline then applySkip st0 else st0)

/-- Lexer::NextToken with the fuel instantiated (any self-call chain
consumes at least one input character per step). -/
def nextToken (st : LexState) : Except LexErr (Tok × LexState) :=
  nextTokenF (st.input.length + 1) st

/-- The Lexer constructor: SkipUselessSymbols, pretend the previous token
was a Newline, then advance once; the resulting state holds the current
token. -/
def mkLexer (input : List Char) : Except LexErr LexState :=
  let st0 := applySkip { indent := 0, indentDiff := 0, token := Tok.newline, input := input }
  match nextToken st0 with
  | .ok (_, st1) => .ok st1
  | .error e => .error e

/-- The token sequence produced by repeatedly advancing the lexer, up to
and including the first Eof (empty on a lexer error; fuel-bounded). -/
def lexTokens : Nat → LexState → List Tok
  | 0, _ => []
  | fuel+1, st =>
    match nextToken st with
    | .ok (t, st1) => if t = .eof then [Tok.eof] else t :: lexTokens fuel st1
    | .error _ => []

/-
Concrete fixtures used by the witness theorems below.
-/

/-- A class A with a method f() whose body reassigns self to 42 and then
returns 7; exercises the self-rebinding path of ClassInstance::Call. -/
def ctSelfRebind : ClassTable :=
  [⟨"A", [⟨"f", [], .methodBody (.compound [.assign "self" (.numConst 42), .ret (.numConst 7)])⟩], none⟩]

/-- A heap with one instance of class 0, no fields. -/
def stOneInst : State := ⟨[⟨0, []⟩]⟩

/-- A class Box whose dunder eq takes one argument and returns True. -/
def ctBoxEq : ClassTable :=
  [⟨"Box", [⟨"__eq__", ["o"], .methodBody (.compound [.ret (.boolConst true)])⟩], none⟩]

/-- A class Pt whose dunder init takes one argument and stores it in the
field v of self. -/
def ctPtInit : ClassTable :=
  [⟨"Pt", [⟨"__init__", ["v"], .methodBody (.compound [.fieldAssign ["self"] "v" (.varValue ["v"])])⟩], none⟩]

end MiniPy

namespace MiniPy

/-
Helper lemmas shared by the claim proofs.
-/

theorem takeWhile_all_append (p : Char → Bool) (ds rest : List Char)
    (hall : ∀ c ∈ ds, p c = true)
    (hstop : ∀ c, rest.head? = some c → p c = false) :
    (ds ++ rest).takeWhile p = ds ∧ (ds ++ rest).dropWhile p = rest := by
  induction ds with
  | nil =>
    simp only [List.nil_append]
    cases rest with
    | nil => simp [List.takeWhile, List.dropWhile]
    | cons c r =>
      have := hstop c rfl
      simp [List.takeWhile, List.dropWhile, this]
  | cons d ds ih =>
    have hd := hall d (by simp)
    have ih' := ih (fun c hc => hall c (by simp [hc]))
    simp [List.takeWhile, List.dropWhile, hd, ih'.1, ih'.2]

theorem ignoreThroughNewline_of_no_newline (l : List Char)
    (h : ∀ c ∈ l, c ≠ '\n') : ignoreThroughNewline l = [] := by
  induction l with
  | nil => rfl
  | cons c r ih =>
    have hc := h c (by simp)
    simp only [ignoreThroughNewline, if_neg hc]
    exact ih (fun x hx => h x (by simp [hx]))

theorem walkFields_append (l1 l2 : List String) (obj : ObjectHolder) (st : State) :
    walkFields (l1 ++ l2) obj st =
      match walkFields l1 obj st with
      | .ok (v, st1) => walkFields l2 v st1
      | .error e => .error e := by
  induction l1 generalizing obj st with
  | nil => simp [walkFields]
  | cons fid rest ih =>
    cases obj with
    | none => simp [walkFields]
    | some v =>
      cases v with
      | inst a =>
        simp only [List.cons_append, walkFields]
        cases State.getInst st a with
        | none => simp
        | some d => simp [ih]
      | num n => simp [walkFields]
      | bool b => simp [walkFields]
      | str s => simp [walkFields]
      | cls c => simp [walkFields]

end MiniPy

namespace MiniPy

/-- Claim C1: for every method invocation on a class instance, if after
executing the method body the binding of self in the fresh call scope
refers to a different object than the original receiver, the call returns
the current self binding instead of the value produced by the body;
otherwise it returns the body's value. -/
theorem c1_call_self_rebinding (f : Nat) (ct : ClassTable) (a : Addr) (mname : String)
    (args : List ObjectHolder) (st : State) (d : InstanceData) (mp : Method)
    (res : ObjectHolder) (cl1 : Closure) (st1 : State) (h : ObjectHolder)
    (h1 : State.getInst st a = some d)
    (h2 : Class.GetMethod ct d.cls mname = some mp)
    (h3 : mp.formal_params.length = args.length)
    (h4 : exec f ct mp.body (bindParams mp.formal_params args [("self", some (.inst a))]) st
            = .ok (res, cl1, st1))
    (h5 : Closure.atKey cl1 "self" = some h) :
    callMethod f ct a mname args st = .ok ((if h = some (.inst a) then res else h), st1) := by
  have hm : hasMethod ct d.cls mname args.length = true := by
    simp [hasMethod, h2, h3]
  simp [callMethod, runCall, h1, hm, h2, h4, h5]

/-- Witness for C1 at a concrete input: calling f() on an instance of the
fixture class (whose body rebinds self to 42 and returns 7) yields 42. -/
theorem c1_witness :
    callMethod 8 ctSelfRebind 0 "f" [] stOneInst = .ok (some (.num 42), stOneInst) := by
  have h := c1_call_self_rebinding 8 ctSelfRebind 0 "f" [] stOneInst
    ⟨0, []⟩ ⟨"f", [], .methodBody (.compound [.assign "self" (.numConst 42), .ret (.numConst 7)])⟩
    (some (.num 7)) [("self", some (.num 42)), ("returned_value", some (.num 7))] stOneInst
    (some (.num 42)) rfl rfl rfl rfl rfl
  simpa using h

/-- Claim C3: wherever the primitive comparisons are defined, the derived
comparisons satisfy NotEqual = not Equal, Greater = not Equal and not Less,
LessOrEqual = not Greater, GreaterOrEqual = not Less; and Greater evaluates
both primitives (Equal first, then Less on the state Equal produced), so it
raises whenever either primitive raises. -/
theorem c3_derived_comparisons (f : Nat) (ct : ClassTable) (lhs rhs : ObjectHolder) (st : State) :
    (∀ e st1, Equal f ct lhs rhs st = .ok (e, st1) →
       NotEqual f ct lhs rhs st = .ok (!e, st1)
     ∧ (∀ l st2, Less f ct lhs rhs st1 = .ok (l, st2) →
          Greater f ct lhs rhs st = .ok (!e && !l, st2)
        ∧ LessOrEqual f ct lhs rhs st = .ok (!(!e && !l), st2))
     ∧ (∀ err, Less f ct lhs rhs st1 = .error err →
          Greater f ct lhs rhs st = .error err ∧ LessOrEqual f ct lhs rhs st = .error err))
  ∧ (∀ err, Equal f ct lhs rhs st = .error err →
       NotEqual f ct lhs rhs st = .error err
     ∧ Greater f ct lhs rhs st = .error err
     ∧ LessOrEqual f ct lhs rhs st = .error err)
  ∧ (∀ l st1, Less f ct lhs rhs st = .ok (l, st1) →
       GreaterOrEqual f ct lhs rhs st = .ok (!l, st1))
  ∧ (∀ err, Less f ct lhs rhs st = .error err →
       GreaterOrEqual f ct lhs rhs st = .error err) := by
  refine ⟨?_, ?_, ?_, ?_⟩
  · intro e st1 he
    refine ⟨by simp [NotEqual, he], ?_, ?_⟩
    · intro l st2 hl
      constructor
      · simp [Greater, he, hl]
      · simp [LessOrEqual, Greater, he, hl]
    · intro err hl
      constructor
      · simp [Greater, he, hl]
      · simp [LessOrEqual, Greater, he, hl]
  · intro err he
    exact ⟨by simp [NotEqual, he], by simp [Greater, he], by simp [LessOrEqual, Greater, he]⟩
  · intro l st1 hl
    simp [GreaterOrEqual, hl]
  · intro err hl
    simp [GreaterOrEqual, hl]

/-- Witness for C3 at a concrete input: on the integers 1 and 2 (where
Equal gives false and Less gives true) the derived comparisons give
NotEqual true, Greater false, LessOrEqual true and GreaterOrEqual false. -/
theorem c3_witness :
    NotEqual 1 [] (some (.num 1)) (some (.num 2)) ⟨[]⟩ = .ok (true, ⟨[]⟩)
  ∧ Greater 1 [] (some (.num 1)) (some (.num 2)) ⟨[]⟩ = .ok (false, ⟨[]⟩)
  ∧ LessOrEqual 1 [] (some (.num 1)) (some (.num 2)) ⟨[]⟩ = .ok (true, ⟨[]⟩)
  ∧ GreaterOrEqual 1 [] (some (.num 1)) (some (.num 2)) ⟨[]⟩ = .ok (false, ⟨[]⟩) := by
  have h := c3_derived_comparisons 1 [] (some (.num 1)) (some (.num 2)) ⟨[]⟩
  have h1 := h.1 false ⟨[]⟩ rfl
  have h2 := (h1.2.1) true ⟨[]⟩ rfl
  exact ⟨h1.1, by simpa using h2.1, by simpa using h2.2, by simpa using h.2.2.1 true ⟨[]⟩ rfl⟩

/-- Claim C2: Equal returns true on two Nones; on matching primitive kinds
it compares the underlying values; on a ClassInstance left operand whose
class defines a unary dunder eq it returns the truthiness coercion of the
dispatch result; in every other case it raises "Equality operator is not
applicable"; and every relational comparison other than equality and
inequality raises on two Nones. -/
theorem c2_equal_semantics (f : Nat) (ct : ClassTable) :
    (∀ st : State, Equal f ct none none st = .ok (true, st))
  ∧ (∀ (a b : Bool) (st : State),
       Equal f ct (some (.bool a)) (some (.bool b)) st = .ok (a == b, st))
  ∧ (∀ (a b : Int) (st : State),
       Equal f ct (some (.num a)) (some (.num b)) st = .ok (a == b, st))
  ∧ (∀ (a b : String) (st : State),
       Equal f ct (some (.str a)) (some (.str b)) st = .ok (a == b, st))
  ∧ (∀ (a : Addr) (d : InstanceData) (mp : Method) (rhs : ObjectHolder) (st : State),
       State.getInst st a = some d →
       Class.GetMethod ct d.cls "__eq__" = some mp →
       mp.formal_params.length = 1 →
       Equal f ct (some (.inst a)) rhs st =
         match callMethod f ct a "__eq__" [rhs] st with
         | .ok (r, st1) => .ok (IsTrue r, st1)
         | .error e => .error e)
  ∧ (∀ (v : Value) (st : State),
       Equal f ct none (some v) st = .error (.runtimeError "Equality operator is not applicable"))
  ∧ (∀ (a : Bool) (rhs : ObjectHolder) (st : State),
       (∀ b : Bool, rhs ≠ some (.bool b)) →
       Equal f ct (some (.bool a)) rhs st = .error (.runtimeError "Equality operator is not applicable"))
  ∧ (∀ (a : Int) (rhs : ObjectHolder) (st : State),
       (∀ b : Int, rhs ≠ some (.num b)) →
       Equal f ct (some (.num a)) rhs st = .error (.runtimeError "Equality operator is not applicable"))
  ∧ (∀ (a : String) (rhs : ObjectHolder) (st : State),
       (∀ b : String, rhs ≠ some (.str b)) →
       Equal f ct (some (.str a)) rhs st = .error (.runtimeError "Equality operator is not applicable"))
  ∧ (∀ (cid : ClassId) (rhs : ObjectHolder) (st : State),
       Equal f ct (some (.cls cid)) rhs st = .error (.runtimeError "Equality operator is not applicable"))
  ∧ (∀ (a : Addr) (d : InstanceData) (rhs : ObjectHolder) (st : State),
       State.getInst st a = some d →
       hasMethod ct d.cls "__eq__" 1 = false →
       Equal f ct (some (.inst a)) rhs st = .error (.runtimeError "Equality operator is not applicable"))
  ∧ (∀ st : State, Less f ct none none st = .error (.runtimeError "Less operator is not applicable"))
  ∧ (∀ st : State, Greater f ct none none st = .error (.runtimeError "Less operator is not applicable"))
  ∧ (∀ st : State, LessOrEqual f ct none none st = .error (.runtimeError "Less operator is not applicable"))
  ∧ (∀ st : State, GreaterOrEqual f ct none none st = .error (.runtimeError "Less operator is not applicable")) := by
  refine ⟨fun st => rfl, fun a b st => rfl, fun a b st => rfl, fun a b st => rfl,
    ?_, fun v st => rfl, ?_, ?_, ?_, fun cid rhs st => rfl, ?_, fun st => rfl,
    fun st => rfl, fun st => rfl, fun st => rfl⟩
  · intro a d mp rhs st h1 h2 h3
    have hm : hasMethod ct d.cls "__eq__" 1 = true := by simp [hasMethod, h2, h3]
    simp [Equal, h1, hm]
  · intro a rhs st h
    rcases rhs with _ | v
    · rfl
    · cases v with
      | bool b => exact absurd rfl (h b)
      | num n => rfl
      | str s => rfl
      | cls c => rfl
      | inst i => rfl
  · intro a rhs st h
    rcases rhs with _ | v
    · rfl
    · cases v with
      | num b => exact absurd rfl (h b)
      | bool n => rfl
      | str s => rfl
      | cls c => rfl
      | inst i => rfl
  · intro a rhs st h
    rcases rhs with _ | v
    · rfl
    · cases v with
      | str b => exact absurd rfl (h b)
      | bool n => rfl
      | num s => rfl
      | cls c => rfl
      | inst i => rfl
  · intro a d rhs st h1 h2
    simp [Equal, h1, h2]

/-- Witness for C2 at a concrete input: on an instance of the fixture class
Box (whose dunder eq always returns True), comparing the instance with the
integer 1 dispatches and yields true. -/
theorem c2_witness :
    Equal 8 ctBoxEq (some (.inst 0)) (some (.num 1)) stOneInst = .ok (true, stOneInst) := by
  have h := (c2_equal_semantics 8 ctBoxEq).2.2.2.2.1 0 ⟨0, []⟩
    ⟨"__eq__", ["o"], .methodBody (.compound [.ret (.boolConst true)])⟩
    (some (.num 1)) stOneInst rfl rfl rfl
  rw [h]
  rfl

theorem exec_newInstance_eq (f : Nat) (ct : ClassTable) (cid : ClassId)
    (args : List Stmt) (cl : Closure) (st : State) :
    exec (f+1) ct (.newInstance cid args) cl st =
      match Class.GetMethod ct cid "__init__" with
      | none => .ok (some (.inst st.heap.length), cl, State.alloc st cid)
      | some mp =>
        if mp.formal_params.length = args.length then
          match execArgs f ct args cl (State.alloc st cid) with
          | .ok (vals, cl1, st2) =>
            match callMethod f ct st.heap.length "__init__" vals st2 with
            | .ok (r, st3) =>
              match r with
              | some v => .ok (some v, cl1, st3)
              | none => .ok (some (.inst st.heap.length), cl1, st3)
            | .error e => .error e
          | .error e => .error e
        else .ok (some (.inst st.heap.length), cl, State.alloc st cid) := rfl

/-- Claim C5: a NewInstance node always constructs a fresh class instance
with an empty field map (State.alloc); when the class defines, via
inheritance lookup, a dunder init whose formal parameter count equals the
argument count, it is invoked on the new instance with the evaluated
arguments, and the node evaluates to the init result when that is
non-empty and to the new instance otherwise; without such an init the node
evaluates to the new instance with no call made. -/
theorem c5_new_instance (f : Nat) (ct : ClassTable) (cid : ClassId)
    (args : List Stmt) (cl : Closure) (st : State) :
    ((Class.GetMethod ct cid "__init__" = none
      ∨ ∃ mp, Class.GetMethod ct cid "__init__" = some mp
            ∧ mp.formal_params.length ≠ args.length) →
      exec (f+1) ct (.newInstance cid args) cl st
        = .ok (some (.inst st.heap.length), cl, State.alloc st cid))
  ∧ (∀ (mp : Method) (vals : List ObjectHolder) (cl1 : Closure) (st2 : State)
       (r : ObjectHolder) (st3 : State),
      Class.GetMethod ct cid "__init__" = some mp →
      mp.formal_params.length = args.length →
      execArgs f ct args cl (State.alloc st cid) = .ok (vals, cl1, st2) →
      callMethod f ct st.heap.length "__init__" vals st2 = .ok (r, st3) →
      exec (f+1) ct (.newInstance cid args) cl st =
        .ok ((match r with | some v => some v | none => some (.inst st.heap.length)), cl1, st3)) := by
  constructor
  · intro h
    rw [exec_newInstance_eq]
    rcases h with h | ⟨mp, h, hne⟩
    · simp [h]
    · simp [h, hne]
  · intro mp vals cl1 st2 r st3 h1 h2 h3 h4
    rw [exec_newInstance_eq]
    simp only [h1, h2, if_true, h3, h4]
    cases r <;> rfl

/-- Witness for C5 at concrete inputs: constructing the fixture class Pt
(whose dunder init stores its argument in field v) with one argument calls
init and yields the fresh instance with the field set; constructing it
with a mismatched argument count skips init and leaves the fields empty. -/
theorem c5_witness :
    exec 7 ctPtInit (.newInstance 0 [.numConst 3]) [] ⟨[]⟩
      = .ok (some (.inst 0), [], ⟨[⟨0, [("v", some (.num 3))]⟩]⟩)
  ∧ exec 7 ctPtInit (.newInstance 0 []) [] ⟨[]⟩
      = .ok (some (.inst 0), [], ⟨[⟨0, []⟩]⟩) := by
  constructor
  · have h := (c5_new_instance 6 ctPtInit 0 [.numConst 3] [] ⟨[]⟩).2
      ⟨"__init__", ["v"], .methodBody (.compound [.fieldAssign ["self"] "v" (.varValue ["v"])])⟩
      [some (.num 3)] [] ⟨[⟨0, []⟩]⟩ none ⟨[⟨0, [("v", some (.num 3))]⟩]⟩
      rfl rfl rfl rfl
    simpa using h
  · have h := (c5_new_instance 6 ctPtInit 0 [] [] ⟨[]⟩).1
      (Or.inr ⟨⟨"__init__", ["v"], .methodBody (.compound [.fieldAssign ["self"] "v" (.varValue ["v"])])⟩,
        rfl, by decide⟩)
    simpa using h

theorem exec_varValue_eq (f : Nat) (ct : ClassTable) (ids : List String)
    (cl : Closure) (st : State) :
    exec (f+1) ct (.varValue ids) cl st =
      match VariableValue.ExecuteCore ids cl st with
      | .ok (v, st1) => .ok (v, cl, st1)
      | .error e => .error e := rfl

/-- Claim C10 (implicit in the code): a variable-access chain whose head is
bound and whose intermediate values are all class instances does not raise
when the final field is absent from the last instance's field map: it
evaluates to None and default-inserts an empty binding for that field into
the instance's field map. -/
theorem c10_missing_field_default_insert (f : Nat) (ct : ClassTable) (x : String)
    (mids : List String) (fld : String) (cl : Closure) (st st1 : State)
    (obj0 : ObjectHolder) (a : Addr) (d : InstanceData) :
    Closure.atKey cl x = some obj0 →
    walkFields mids obj0 st = .ok (some (.inst a), st1) →
    State.getInst st1 a = some d →
    Closure.atKey d.fields fld = none →
    exec (f+1) ct (.varValue (x :: (mids ++ [fld]))) cl st
      = .ok (none, cl, State.setInst st1 a ⟨d.cls, d.fields ++ [(fld, none)]⟩) := by
  intro h1 h2 h3 h4
  rw [exec_varValue_eq]
  show (match VariableValue.ExecuteCore (x :: (mids ++ [fld])) cl st with
        | .ok (v, st1) => Except.ok (v, cl, st1)
        | .error e => .error e) = _
  simp only [VariableValue.ExecuteCore, h1]
  rw [walkFields_append, h2]
  simp only [walkFields, h3, Closure.indexKey, h4]

/-- Witness for C10 at a concrete input: reading x.f where x is bound to an
instance with no fields yields None and inserts an empty binding for f. -/
theorem c10_witness :
    exec 1 [] (.varValue ["x", "f"]) [("x", some (.inst 0))] ⟨[⟨0, []⟩]⟩
      = .ok (none, [("x", some (.inst 0))], ⟨[⟨0, [("f", none)]⟩]⟩) := by
  have h := c10_missing_field_default_insert 0 [] "x" [] "f"
    [("x", some (.inst 0))] ⟨[⟨0, []⟩]⟩ ⟨[⟨0, []⟩]⟩ (some (.inst 0)) 0 ⟨0, []⟩
    rfl rfl rfl rfl
  simpa using h

/-- Claim C6 (code divergence): evaluating a MethodCall whose object is not
a class instance, or a FieldAssignment whose object chain yields a
non-instance, dereferences the null pointer TryAs returned - undefined
behaviour, not a raised runtime error.  Both evaluations below end in the
model's nullDeref marker, not in a runtimeError. -/
theorem c6_non_instance_null_deref :
    exec 5 [] (.methodCall (.varValue ["x"]) "f" []) [("x", some (.num 5))] ⟨[]⟩
      = .error .nullDeref
  ∧ exec 5 [] (.fieldAssign ["x"] "f" (.numConst 1)) [("x", some (.num 5))] ⟨[]⟩
      = .error .nullDeref := ⟨rfl, rfl⟩

theorem digit_not (c : Char) (h : c.isDigit = true) :
    c ≠ ' ' ∧ c ≠ '\n' ∧ c ≠ '\'' ∧ c ≠ '\"' := by
  refine ⟨?_, ?_, ?_, ?_⟩ <;> rintro rfl <;> exact absurd h (by decide)

theorem applySkip_nil (ind diff : Int) (tok : Tok) :
    applySkip ⟨ind, diff, tok, []⟩ = ⟨0, -ind, tok, []⟩ := by
  simp [applySkip, skipUselessSymbols, skipUselessF]

theorem nextTokenF_succ (f : Nat) (st0 : LexState) :
    nextTokenF (f+1) st0 =
      if st0.token = .eof then .ok (.eof, st0)
      else nextTokenBody (fun s => nextTokenF f s)
             (if st0.token = .newline then applySkip st0 else st0) := rfl

/-- Claim C7 as amended: a maximal digit run is parsed by stoi into the
host int, so a run whose value is at most INT_MAX (2^31 - 1) lexes to an
Integer token carrying exactly that value; larger runs raise
std::out_of_range (see the counterexample for the original 64-bit claim). -/
theorem c7_number_token_amended (ind : Int) (tok : Tok) (ds rest : List Char) :
    tok ≠ .eof → tok ≠ .newline →
    ds ≠ [] → (∀ c ∈ ds, c.isDigit = true) →
    (∀ c, rest.head? = some c → c.isDigit = false) →
    digitsToNat ds ≤ 2147483647 →
    nextToken ⟨ind, 0, tok, ds ++ rest⟩
      = .ok (.number (Int.ofNat (digitsToNat ds)),
             ⟨ind, 0, .number (Int.ofNat (digitsToNat ds)), rest⟩) := by
  intro heof hnl hne hall hstop hmax
  obtain ⟨d, ds', rfl⟩ : ∃ d ds', ds = d :: ds' := by
    cases ds with
    | nil => exact absurd rfl hne
    | cons d ds' => exact ⟨d, ds', rfl⟩
  have hd : d.isDigit = true := hall d (by simp)
  obtain ⟨hd1, hd2, hd3, hd4⟩ := digit_not d hd
  have htw := takeWhile_all_append Char.isDigit (d :: ds') rest hall hstop
  rw [show nextToken ⟨ind, 0, tok, (d :: ds') ++ rest⟩
      = nextTokenF (((d :: ds') ++ rest).length + 1) ⟨ind, 0, tok, (d :: ds') ++ rest⟩ from rfl]
  rw [nextTokenF_succ]
  rw [if_neg (show (LexState.mk ind 0 tok ((d :: ds') ++ rest)).token ≠ Tok.eof from heof)]
  rw [if_neg (show (LexState.mk ind 0 tok ((d :: ds') ++ rest)).token ≠ Tok.newline from hnl)]
  simp only [nextTokenBody]
  rw [if_neg (show ¬ (((LexState.mk ind 0 tok ((d :: ds') ++ rest)).indentDiff) ≠ 0) from by norm_num)]
  have hdrop : List.dropWhile (fun c => decide (c = ' ')) ((d :: ds') ++ rest)
      = d :: (ds' ++ rest) := by
    simp [List.dropWhile_cons, hd1]
  simp only [hdrop]
  simp only [if_neg hd2, hd, if_true]
  have hgn : getNumber (d :: (ds' ++ rest))
      = .ok (.number (Int.ofNat (digitsToNat (d :: ds'))), rest) := by
    simp only [getNumber, List.cons_append] at htw ⊢
    rw [htw.1, htw.2, if_pos hmax]
  simp only [hgn]

/-- Witness for the amended C7 at a concrete input: lexing "12)" yields the
Integer token 12 with ")" left in the stream. -/
theorem c7_witness :
    nextToken ⟨0, 0, .char '(', "12)".toList⟩
      = .ok (.number 12, ⟨0, 0, .number 12, ")".toList⟩) := by
  have h := c7_number_token_amended 0 (.char '(') ['1', '2'] [')']
    (by decide) (by decide) (by decide) (by decide)
    (by
      intro c hc
      simp only [List.head?] at hc
      cases hc
      decide)
    (by decide)
  simpa using h

/-- Counterexample to C7 as stated: the digit run 2147483648 fits in a
signed 64-bit integer, yet the lexer raises std::out_of_range from stoi
(whose result type is the 32-bit int) instead of producing a token. -/
theorem c7_counterexample :
    nextToken ⟨0, 0, .char '(', "2147483648".toList⟩ = .error .stoiOutOfRange
  ∧ digitsToNat ("2147483648".toList) = 2147483648
  ∧ (2147483648 : Nat) < 2 ^ 63 := ⟨rfl, rfl, by norm_num⟩

/-- Claim C8 as amended, over every lexer state: (1) once Eof has been
emitted every advance returns Eof with the state untouched; (2) at end of
input with no pending indentation emissions, a previous Indent or Dedent
token gives Eof at once; (3) so does a previous Newline when the current
indent depth is zero, while (4) a positive depth makes the advance emit a
Dedent first; (5) after any other token one synthetic Newline is emitted
(after which clauses 3 and 4 govern the next advance); (6) pending
indentation emissions are drained one Indent or Dedent per advance before
anything else; and (7) when end of input is reached inside a comment that
starts at a token position, Eof is emitted immediately regardless of the
previous token. -/
theorem c8_eof_behaviour_amended :
    (∀ st : LexState, st.token = .eof → nextToken st = .ok (.eof, st))
  ∧ (∀ (ind : Int) (tok : Tok), (tok = .indent ∨ tok = .dedent) →
       nextToken ⟨ind, 0, tok, []⟩ = .ok (.eof, ⟨ind, 0, .eof, []⟩))
  ∧ (∀ ind : Int, ind = 0 → nextToken ⟨ind, 0, .newline, []⟩ = .ok (.eof, ⟨0, 0, .eof, []⟩))
  ∧ (∀ ind : Int, 0 < ind →
       nextToken ⟨ind, 0, .newline, []⟩ = .ok (.dedent, ⟨0, -ind + 1, .dedent, []⟩))
  ∧ (∀ (ind : Int) (tok : Tok), tok ≠ .eof → tok ≠ .indent → tok ≠ .dedent → tok ≠ .newline →
       nextToken ⟨ind, 0, tok, []⟩ = .ok (.newline, ⟨ind, 0, .newline, []⟩))
  ∧ (∀ (ind diff : Int) (tok : Tok) (inp : List Char), tok ≠ .eof → tok ≠ .newline → diff ≠ 0 →
       nextToken ⟨ind, diff, tok, inp⟩ =
         .ok ((if diff > 0 then Tok.indent else Tok.dedent),
              ⟨ind, (if diff > 0 then diff - 1 else diff + 1),
               (if diff > 0 then Tok.indent else Tok.dedent), inp⟩))
  ∧ (∀ (ind : Int) (tok : Tok) (rest : List Char), tok ≠ .eof → tok ≠ .newline →
       (∀ c ∈ rest, c ≠ '\n') →
       nextToken ⟨ind, 0, tok, '#' :: rest⟩ = .ok (.eof, ⟨0, -ind, .eof, []⟩)) := by
  refine ⟨?_, ?_, ?_, ?_, ?_, ?_, ?_⟩
  · intro st h
    rw [show nextToken st = nextTokenF (st.input.length + 1) st from rfl, nextTokenF_succ, if_pos h]
  · intro ind tok h
    have h1 : tok ≠ Tok.eof := by rcases h with rfl | rfl <;> decide
    have h2 : tok ≠ Tok.newline := by rcases h with rfl | rfl <;> decide
    have h3 : (tok = Tok.indent ∨ tok = Tok.dedent ∨ tok = Tok.newline) := by
      rcases h with rfl | rfl
      · exact Or.inl rfl
      · exact Or.inr (Or.inl rfl)
    rw [show nextToken ⟨ind, 0, tok, []⟩ = nextTokenF 1 ⟨ind, 0, tok, []⟩ from rfl, nextTokenF_succ]
    rw [if_neg (show (LexState.mk ind 0 tok []).token ≠ Tok.eof from h1)]
    rw [if_neg (show (LexState.mk ind 0 tok []).token ≠ Tok.newline from h2)]
    simp only [nextTokenBody]
    rw [if_neg (show ¬ (((LexState.mk ind 0 tok []).indentDiff) ≠ 0) from by norm_num)]
    simp [h3]
  · rintro ind rfl
    rfl
  · intro ind hpos
    rw [show nextToken ⟨ind, 0, .newline, []⟩ = nextTokenF 1 ⟨ind, 0, .newline, []⟩ from rfl,
      nextTokenF_succ]
    rw [if_neg (show (LexState.mk ind 0 Tok.newline []).token ≠ Tok.eof from
      fun hh => Tok.noConfusion hh)]
    rw [if_pos (show (LexState.mk ind 0 Tok.newline []).token = Tok.newline from rfl)]
    rw [applySkip_nil]
    simp only [nextTokenBody]
    rw [if_pos (show ((LexState.mk 0 (-ind) Tok.newline []).indentDiff ≠ 0) from by
      simp only []
      omega)]
    rw [if_neg (show ¬ ((LexState.mk 0 (-ind) Tok.newline []).indentDiff > 0) from by
      simp only []
      omega)]
  · intro ind tok h1 h2 h3 h4
    rw [show nextToken ⟨ind, 0, tok, []⟩ = nextTokenF 1 ⟨ind, 0, tok, []⟩ from rfl, nextTokenF_succ]
    rw [if_neg (show (LexState.mk ind 0 tok []).token ≠ Tok.eof from h1)]
    rw [if_neg (show (LexState.mk ind 0 tok []).token ≠ Tok.newline from h4)]
    simp only [nextTokenBody]
    rw [if_neg (show ¬ (((LexState.mk ind 0 tok []).indentDiff) ≠ 0) from by norm_num)]
    have hno : ¬ (tok = Tok.indent ∨ tok = Tok.dedent ∨ tok = Tok.newline) := by
      rintro (rfl | rfl | rfl) <;> simp at h2 h3 h4
    simp [hno]
  · intro ind diff tok inp h1 h2 h3
    rw [show nextToken ⟨ind, diff, tok, inp⟩
        = nextTokenF (inp.length + 1) ⟨ind, diff, tok, inp⟩ from rfl, nextTokenF_succ]
    rw [if_neg (show (LexState.mk ind diff tok inp).token ≠ Tok.eof from h1)]
    rw [if_neg (show (LexState.mk ind diff tok inp).token ≠ Tok.newline from h2)]
    simp only [nextTokenBody]
    rw [if_pos (show ((LexState.mk ind diff tok inp).indentDiff ≠ 0) from h3)]
    split_ifs <;> rfl
  · intro ind tok rest h1 h2 hno
    have hig : ignoreThroughNewline rest = [] := ignoreThroughNewline_of_no_newline rest hno
    rw [show nextToken ⟨ind, 0, tok, '#' :: rest⟩
        = nextTokenF (('#' :: rest).length + 1) ⟨ind, 0, tok, '#' :: rest⟩ from rfl, nextTokenF_succ]
    rw [if_neg (show (LexState.mk ind 0 tok ('#' :: rest)).token ≠ Tok.eof from h1)]
    rw [if_neg (show (LexState.mk ind 0 tok ('#' :: rest)).token ≠ Tok.newline from h2)]
    simp only [nextTokenBody]
    rw [if_neg (show ¬ (((LexState.mk ind 0 tok ('#' :: rest)).indentDiff) ≠ 0) from by norm_num)]
    have hdrop : List.dropWhile (fun c => decide (c = ' ')) ('#' :: rest) = '#' :: rest := by
      simp [List.dropWhile_cons]
    simp only [hdrop]
    simp only [if_neg (show ('#' : Char) ≠ '\n' from by decide),
      (show ('#' : Char).isDigit = false from by decide),
      if_neg (show ¬ (('#' : Char) = '\'' ∨ ('#' : Char) = '\"') from by decide),
      if_pos (show ('#' : Char) = '#' from rfl), Bool.false_eq_true, if_false]
    simp only [hig]
    rw [show ({ indent := ind, indentDiff := 0, token := tok, input := [] } : LexState)
        = (⟨ind, 0, tok, []⟩ : LexState) from rfl, applySkip_nil]
    rfl

/-- Witness for the amended C8 at concrete inputs: after a Number token an
exhausted stream gives one synthetic Newline, then Eof, and Eof repeats. -/
theorem c8_witness :
    nextToken ⟨0, 0, .number 1, []⟩ = .ok (.newline, ⟨0, 0, .newline, []⟩)
  ∧ nextToken ⟨0, 0, .newline, []⟩ = .ok (.eof, ⟨0, 0, .eof, []⟩)
  ∧ nextToken ⟨0, 0, .eof, []⟩ = .ok (.eof, ⟨0, 0, .eof, []⟩) := by
  refine ⟨?_, ?_, ?_⟩
  · exact c8_eof_behaviour_amended.2.2.2.2.1 0 (.number 1)
      (by decide) (by decide) (by decide) (by decide)
  · exact c8_eof_behaviour_amended.2.2.1 0 rfl
  · exact c8_eof_behaviour_amended.1 ⟨0, 0, .eof, []⟩ rfl

/-- Counterexample to C8 as stated: lexing "1 #c", the previously emitted
token is the Number 1 (neither Indent, Dedent nor Newline), the stream is
exhausted during the next advance (inside the trailing comment), and that
advance emits Eof - not the synthetic Newline the claim promises for this
case. -/
theorem c8_counterexample :
    mkLexer ("1 #c".toList) = .ok ⟨0, 0, .number 1, " #c".toList⟩
  ∧ nextToken ⟨0, 0, .number 1, " #c".toList⟩ = .ok (.eof, ⟨0, 0, .eof, []⟩)
  ∧ (Tok.eof == Tok.newline) = false := ⟨rfl, rfl, rfl⟩

/-- Claim C9 (code divergence): lexing the well-formed two-line source
"x # c NEWLINE two-spaces y" (line depths 0 and 1, exact two-space units),
the token sequence starts with the identifier x, a Newline and a Dedent -
a prefix holding one Dedent and no Indent, so the cumulative Indent minus
Dedent count goes negative.  The mid-line comment makes
SkipUselessSymbols measure the next line's indentation twice: first from
the comment branch (setting indent to 1), then again after the Newline
token, when the leading spaces are already consumed (computing 0 - 1 and
so emitting a spurious Dedent). -/
theorem c9_balance_violation :
    mkLexer ("x # c\n  y".toList) = .ok ⟨0, 0, .id "x", " # c\n  y".toList⟩
  ∧ Tok.id "x" :: lexTokens 10 ⟨0, 0, .id "x", " # c\n  y".toList⟩
      = [.id "x", .newline, .dedent, .id "y", .newline, .eof]
  ∧ ([Tok.id "x", .newline, .dedent].count .indent = 0
     ∧ [Tok.id "x", .newline, .dedent].count .dedent = 1) := ⟨rfl, rfl, by decide, by decide⟩

end MiniPy
